import Mathlib

/-!
# Verification of `toy-gaussian.py` (adversarial variational optimization)

Shallow embedding of the toy Gaussian adversarial-variational-optimization
script.  Numpy floating-point arrays are modelled over the real numbers
(`Vec := List ℝ`); Python dicts keyed by strings become association lists
(`PDict`); the numpy random machinery becomes explicit oracle streams:

* `RNG` packages the draws one `check_random_state(seed)` stream can
  produce (standard-normal draws, index permutations, uniform draws);
* a family `S : ℕ → RNG` gives the seeded stream obtained from seed `i`
  (the same seed always yields the same stream, which is exactly what
  numpy's seeded `RandomState` guarantees);
* a tape `G : ℕ → ℝ` gives the standard-normal draws of the *unseeded*
  global numpy state at the point of the call (`random_state=None`).

The helper modules `nn` and `proposals` are not part of the repository
snapshot; the definitions taken from them are modelled from the spec and
say so in their doc comments.  Everything else is translated from
`src/code/toy-gaussian.py`.
-/

noncomputable section

abbrev Vec := List ℝ

/-- Elementwise sum of two numpy vectors (shapes agree at every use site). -/
def vadd (u v : Vec) : Vec := List.zipWith (· + ·) u v

/-- Scalar times vector, numpy broadcast `c * v`. -/
def smulV (c : ℝ) (v : Vec) : Vec := v.map (fun x => c * x)

/-- A Python dict from parameter-group name to numeric vector, as an
ordered association list (iteration order is insertion order, as in
Python 3.7+). -/
abbrev PDict := List (String × Vec)

/-- `d[k]` lookup; yields `[]` when the key is absent (the theorems below
only ever look up keys that are present). -/
def dget : PDict → String → Vec
  | [], _ => []
  | kv :: rest, k => if kv.1 = k then kv.2 else dget rest k

/-- `list(d.keys())`. -/
def dkeys (d : PDict) : List String := d.map Prod.fst

/-- `d[k] += v` : elementwise in-place add at key `k` (a missing key would
be a Python `KeyError`; in every run below the key is present). -/
def dictAddAt (d : PDict) (k : String) (v : Vec) : PDict :=
  d.map fun kv => if kv.1 = k then (kv.1, vadd kv.2 v) else kv

/-- One seeded numpy `RandomState` stream, as the oracle of the draws the
program extracts from it: `normal j` is its `j`-th standard-normal draw,
`perm n` its answer to `permutation(n)`, `unif j` its `j`-th `rand()`
draw in `[0,1]`. -/
structure RNG where
  normal : ℕ → ℝ
  perm : ℕ → List ℕ
  unif : ℕ → ℝ

/-- `np.mean` of a 1-d array. -/
def npMean (l : List ℝ) : ℝ := l.sum / l.length

-- Global params (lines 20-23 of the source)

def batch_size : ℕ := 64

def n_epochs : ℕ := 300 + 1

def lambda_gp : ℝ := 0.025

def gamma : ℝ := 5.0

/-- `true_theta = np.array([0.5, np.log(0.5)])` (line 25). -/
def true_theta : Vec := [0.5, Real.log 0.5]

/-- Simulator (lines 31-35): `norm.rvs(size=n, loc=theta[0],
scale=exp(theta[1]))` reshaped to an `(n,1)` matrix; a scipy normal draw
with location `l` and scale `s` is `l + s * z` for a standard-normal `z`,
here taken from the oracle tape `z`. -/
def simulator (theta : Vec) (n : ℕ) (z : ℕ → ℝ) : List Vec :=
  (List.range n).map fun j =>
    [theta.getD 0 0 + Real.exp (theta.getD 1 0) * z j]

/-- Modelled from the spec (§4.1; `proposals.gaussian_draw` is not in the
repository snapshot): `sample(n, rng)` returns `n` independent draws, each
a vector of length = parameter dimensionality, dimension `d` distributed
as `location[d] + exp(log_scale[d]) * z` for a standard normal `z` from
the given stream; reproducible given an identical rng state. -/
def gaussian_draw (pp : PDict) (n : ℕ) (z : ℕ → ℝ) : List Vec :=
  (List.range n).map fun j =>
    (List.range (dget pp "location").length).map fun d =>
      (dget pp "location").getD d 0 +
        Real.exp ((dget pp "log_scale").getD d 0) *
          z (j * (dget pp "location").length + d)

/-- Modelled from the spec (§4.1; `proposals.grad_gaussian_logpdf` is not
in the repository snapshot): GradientDict with the closed forms
`∂/∂location_d = (θ_d − location_d) / variance_d` and
`∂/∂log_scale_d = ((θ_d − location_d)^2 / variance_d) − 1`, where
`variance_d = exp(log_scale_d)^2`. -/
def grad_gaussian_logpdf (pp : PDict) (th : Vec) : PDict :=
  [("location",
    (List.range (dget pp "location").length).map fun d =>
      (th.getD d 0 - (dget pp "location").getD d 0) /
        Real.exp ((dget pp "log_scale").getD d 0) ^ 2),
   ("log_scale",
    (List.range (dget pp "location").length).map fun d =>
      (th.getD d 0 - (dget pp "location").getD d 0) ^ 2 /
        Real.exp ((dget pp "log_scale").getD d 0) ^ 2 - 1)]

/-- Modelled from the spec (§4.1; `proposals.grad_gaussian_entropy` is not
in the repository snapshot): the entropy gradient is exactly 0 for every
`location` component and exactly 1 for every `log_scale` component. -/
def grad_gaussian_entropy (pp : PDict) : PDict :=
  [("location", List.replicate (dget pp "location").length (0:ℝ)),
   ("log_scale", List.replicate (dget pp "log_scale").length (1:ℝ))]

-- Critic (lines 49-69)

/-- Critic parameters (lines 49-57): two hidden layers of weights and
biases and a linear output layer; `W2` is the final weight vector and
`b2` the final scalar bias. -/
structure Critic where
  W0 : List Vec
  b0 : Vec
  W1 : List Vec
  b1 : Vec
  W2 : Vec
  b2 : ℝ

/-- Dot product of two equal-length vectors. -/
def dot (u v : Vec) : ℝ := (List.zipWith (· * ·) u v).sum

/-- Modelled from the spec (§4.2; `nn.relu` is not in the repository
snapshot): the leaky rectifier with negative slope `alpha`,
`x` if `x > 0` else `alpha * x`. -/
def relu (alpha x : ℝ) : ℝ := if 0 < x then x else alpha * x

/-- Pointwise derivative of the leaky rectifier (the branch actually
taken by `relu`): `1` if `x > 0` else `alpha`. -/
def reluDeriv (alpha x : ℝ) : ℝ := if 0 < x then 1 else alpha

/-- `predict` (lines 62-67) on one input row: two leaky-relu hidden
layers (`alpha = 0.1`) and a linear output producing one scalar. -/
def predictRow (p : Critic) (x : Vec) : ℝ :=
  let h1 := (p.W0.zip p.b0).map fun wb => relu 0.1 (dot wb.1 x + wb.2)
  let h2 := (p.W1.zip p.b1).map fun wb => relu 0.1 (dot wb.1 h1 + wb.2)
  dot p.W2 h2 + p.b2

/-- `predict` (lines 62-67): row-wise scores of a batch. -/
def predict (X : List Vec) (p : Critic) : Vec := X.map (predictRow p)

/-- `grad_predict_critic = ag.elementwise_grad(predict)` (line 69) on one
row: the exact gradient of `predictRow` with respect to its input, by
backpropagation through the same forward computation. -/
def gradPredictRow (p : Critic) (x : Vec) : Vec :=
  let z1 := (p.W0.zip p.b0).map fun wb => dot wb.1 x + wb.2
  let h1 := z1.map (relu 0.1)
  let z2 := (p.W1.zip p.b1).map fun wb => dot wb.1 h1 + wb.2
  let d2 := List.zipWith (fun w z => w * reluDeriv 0.1 z) p.W2 z2
  let d1 := (List.range z1.length).map fun j =>
    (List.zipWith (fun c row => c * row.getD j 0) d2 p.W1).sum *
      reluDeriv 0.1 (z1.getD j 0)
  (List.range x.length).map fun q =>
    (List.zipWith (fun c row => c * row.getD q 0) d1 p.W0).sum

/-- Euclidean norm of the per-input critic gradient at one row:
`np.sum(grad_Dx ** 2, axis=1) ** 0.5` (line 96). -/
def gradNorm (p : Critic) (r : Vec) : ℝ :=
  Real.sqrt (((gradPredictRow p r).map fun giz => giz ^ 2).sum)

/-- `X_obs = simulator(true_theta, 20000, random_state=123)` (line 37):
the observed data, drawn through the stream seeded with 123. -/
def observedData (S : ℕ → RNG) : List Vec :=
  simulator true_theta 20000 (S 123).normal

-- loss_critic (lines 72-99).  The local arrays of the function body are
-- named top-level definitions so the theorems can speak about them; the
-- function itself composes them exactly as the source does.

/-- `y_critic` (lines 73-75): zeros, with ones from index
`batch_size // 2` on. -/
def y_critic (bs : ℕ) : List ℝ :=
  List.replicate (bs / 2) (0:ℝ) ++ List.replicate (bs - bs / 2) (1:ℝ)

/-- `thetas = gaussian_draw(params_proposal, batch_size // 2)` (line 80):
drawn WITHOUT a `random_state`, i.e. from the unseeded global stream
`G`. -/
def lcThetas (pp : PDict) (G : ℕ → ℝ) (bs : ℕ) : List Vec :=
  gaussian_draw pp (bs / 2) G

/-- `_X_gen` (lines 81-83): one simulated observation per drawn theta,
using the stream seeded with `i` (the `j`-th call consumes the `j`-th
seeded normal draw). -/
def lcXGen (pp : PDict) (G : ℕ → ℝ) (S : ℕ → RNG) (i bs : ℕ) : List Vec :=
  (lcThetas pp G bs).mapIdx fun j th =>
    (simulator th 1 fun m => (S i).normal (j + m)).getD 0 []

/-- `indices = rng.permutation(len(X_obs))` (line 85). -/
def lcIndices (S : ℕ → RNG) (i n : ℕ) : List ℕ := (S i).perm n

/-- `_X_obs = X_obs[indices[:batch_size // 2]]` (line 86). -/
def lcXReal (Xo : List Vec) (S : ℕ → RNG) (i bs : ℕ) : List Vec :=
  ((lcIndices S i Xo.length).take (bs / 2)).map fun idx => Xo.getD idx []

/-- `X = np.vstack([_X_gen, _X_obs])` (line 87). -/
def lcX (Xo : List Vec) (pp : PDict) (G : ℕ → ℝ) (S : ℕ → RNG) (i bs : ℕ) :
    List Vec :=
  lcXGen pp G S i bs ++ lcXReal Xo S i bs

/-- `eps = rng.rand(batch_size // 2, 1)` (line 93): one uniform draw per
generated/real pair, from the stream seeded with `i`. -/
def lcEps (S : ℕ → RNG) (i bs : ℕ) : List ℝ :=
  (List.range (bs / 2)).map fun j => (S i).unif j

/-- `_X_hat = eps * _X_obs + (1. - eps) * _X_gen` (line 94): the convex
row-wise interpolation, `eps` broadcast along each row. -/
def lcXHat (Xo : List Vec) (pp : PDict) (G : ℕ → ℝ) (S : ℕ → RNG)
    (i bs : ℕ) : List Vec :=
  List.zipWith
    (fun (e : ℝ) (pr : Vec × Vec) =>
      List.zipWith (fun xo xg => e * xo + (1 - e) * xg) pr.1 pr.2)
    (lcEps S i bs) ((lcXReal Xo S i bs).zip (lcXGen pp G S i bs))

/-- `l_wgan = np.mean(-y_critic * y_pred + (1. - y_critic) * y_pred)`
(line 90). -/
def lcWasserstein (Xo : List Vec) (pp : PDict) (G : ℕ → ℝ) (S : ℕ → RNG)
    (pc : Critic) (i bs : ℕ) : ℝ :=
  npMean (List.zipWith (fun y yp => -y * yp + (1 - y) * yp)
    (y_critic bs) (predict (lcX Xo pp G S i bs) pc))

/-- `l_gp = np.mean((norms - 1.0) ** 2.0)` (lines 95-97). -/
def lcGradPenalty (Xo : List Vec) (pp : PDict) (G : ℕ → ℝ) (S : ℕ → RNG)
    (pc : Critic) (i bs : ℕ) : ℝ :=
  npMean ((lcXHat Xo pp G S i bs).map fun r => (gradNorm pc r - 1) ^ 2)

/-- `loss_critic(params_critic, i, lambda_gp, batch_size)` (lines 72-99).
The elementwise product `y_critic * y_pred` pairs the label vector
(length `batch_size`) with the stacked score vector (length
`2*(batch_size//2)`); numpy raises a shape error exactly when the two
lengths differ AND neither operand has size 1 (a size-1 operand is
broadcast instead), so only that case yields `none`.  In the broadcast
case — `batch_size = 1` in this program, where both batch halves are
empty — the real function returns `nan` (means over empty arrays)
without raising; the empty `np.mean` is modelled by the `0/0 = 0`
convention of `npMean`.  `Xo` is the module-level `X_obs`, `pp` the
module-level `params_proposal`, `G` the global unseeded stream at the
call, `S` the seeded-stream family. -/
def loss_critic (Xo : List Vec) (pp : PDict) (G : ℕ → ℝ) (S : ℕ → RNG)
    (pc : Critic) (i : ℕ) (lgp : ℝ) (bs : ℕ) : Option ℝ :=
  if (y_critic bs).length = (predict (lcX Xo pp G S i bs) pc).length ∨
      (y_critic bs).length = 1 ∨
      (predict (lcX Xo pp G S i bs) pc).length = 1 then
    some (lcWasserstein Xo pp G S pc i bs +
      lgp * lcGradPenalty Xo pp G S pc i bs)
  else none

-- approx_grad_u (lines 106-129)

/-- The zero-initialized accumulator dicts of `approx_grad_u` (lines
108-109): `{k: np.zeros(len(params_proposal[k])) for k in
params_proposal}`. -/
def aguZeros (pp : PDict) : PDict :=
  pp.map fun kv => (kv.1, List.replicate kv.2.length (0:ℝ))

/-- The critic score of the single observation simulated for the `j`-th
sampled theta (lines 113-114): `x = simulator(theta, 1)` uses the
UNSEEDED global stream (`random_state=None`), its `j`-th call consuming
the `j`-th global draw; `dx = predict(x, params_critic).ravel()`. -/
def aguScore (G : ℕ → ℝ) (pc : Critic) (jt : ℕ × Vec) : ℝ :=
  predictRow pc ((simulator jt.2 1 fun m => G (jt.1 + m)).getD 0 [])

/-- One iteration of the accumulation loop (lines 112-118): for each
`(k, v)` in `grad_log_density(theta)`, do `grad_u[k] += -dx * v`. -/
def aguStep (G : ℕ → ℝ) (pc : Critic) (pp : PDict) (acc : PDict)
    (jt : ℕ × Vec) : PDict :=
  (grad_gaussian_logpdf pp jt.2).foldl
    (fun a kv => dictAddAt a kv.1 (smulV (-(aguScore G pc jt)) kv.2)) acc

/-- `approx_grad_u(params_proposal, i, gamma)` (lines 106-129): draw
`batch_size` thetas from the proposal through the stream seeded with
`i`; accumulate `-score(x) * grad_log_density(theta)` over them (the
simulated `x` coming from the unseeded global stream `G`); accumulate
the exact entropy gradient once; finally set
`grad_u[k] = 1/M * grad_u[k] + gamma * grad_ent[k]` with
`M = len(thetas)`. -/
def approx_grad_u (G : ℕ → ℝ) (S : ℕ → RNG) (pc : Critic) (pp : PDict)
    (i : ℕ) (gam : ℝ) : PDict :=
  let thetas := gaussian_draw pp batch_size (S i).normal
  let grad_u := thetas.enum.foldl (aguStep G pc pp) (aguZeros pp)
  let grad_ent := (grad_gaussian_entropy pp).foldl
    (fun a kv => dictAddAt a kv.1 kv.2) (aguZeros pp)
  let M := thetas.length
  grad_u.map fun kv =>
    (kv.1, vadd (smulV (1 / (M:ℝ)) kv.2) (smulV gam (dget grad_ent kv.1)))

-- AdamOptimizer.  `nn.AdamOptimizer` is not in the repository snapshot;
-- the whole optimizer is modelled from the spec (§4.4).

/-- Modelled from the spec: elementwise operations over one parameter
structure shape `P`, so the optimizer can be stated once for critic
parameters and once for proposal dicts. -/
structure ParamOps (P : Type) where
  map2 : (ℝ → ℝ → ℝ) → P → P → P
  map3 : (ℝ → ℝ → ℝ → ℝ) → P → P → P → P
  zeros : P → P

/-- Modelled from the spec (§4.4, `OptimizerState` §3): a step counter
and per-group first/second moment estimates of the parameter shape,
plus the internally tracked trial parameters `x`. -/
structure AdamState (P : Type) where
  x : P
  m : P
  v : P
  t : ℕ

/-- Modelled from the spec (§4.4): one Adam iteration.  Evaluate the
gradient function at the internally tracked trial parameters and the
current step count, update the biased moments with decay rates `b1`,
`b2`, advance the counter, bias-correct, and apply
`param -= step_size * mhat / (sqrt(vhat) + e)`. -/
def adamStep {P : Type} (ops : ParamOps P) (gf : P → ℕ → P)
    (a b1 b2 e : ℝ) (s : AdamState P) : AdamState P :=
  let g := gf s.x s.t
  let m := ops.map2 (fun mi gi => b1 * mi + (1 - b1) * gi) s.m g
  let v := ops.map2 (fun vi gi => b2 * vi + (1 - b2) * gi ^ 2) s.v g
  let t := s.t + 1
  let x := ops.map3
    (fun xi mi vi =>
      xi - a * (mi / (1 - b1 ^ t)) / (Real.sqrt (vi / (1 - b2 ^ t)) + e))
    s.x m v
  ⟨x, m, v, t⟩

/-- Modelled from the spec (§4.4): `step(k)` performs exactly `k`
consecutive update iterations. -/
def adamStepN {P : Type} (ops : ParamOps P) (gf : P → ℕ → P)
    (a b1 b2 e : ℝ) : ℕ → AdamState P → AdamState P
  | 0, s => s
  | k + 1, s => adamStepN ops gf a b1 b2 e k (adamStep ops gf a b1 b2 e s)

/-- Modelled from the spec (§4.4): `reset()` zeroes the step counter and
both moment estimates without altering the tracked parameter values. -/
def adamReset {P : Type} (ops : ParamOps P) (s : AdamState P) : AdamState P :=
  { s with m := ops.zeros s.m, v := ops.zeros s.v, t := 0 }

/-- Modelled from the spec (§4.4): optimizer construction; the state is
created with trial parameters equal to the caller's parameters and
zeroed moments and counter. -/
def mkAdam {P : Type} (ops : ParamOps P) (params : P) : AdamState P :=
  ⟨params, ops.zeros params, ops.zeros params, 0⟩

/-- Elementwise operations on the critic parameter structure. -/
def criticOps : ParamOps Critic where
  map2 f c1 c2 :=
    ⟨List.zipWith (List.zipWith f) c1.W0 c2.W0, List.zipWith f c1.b0 c2.b0,
     List.zipWith (List.zipWith f) c1.W1 c2.W1, List.zipWith f c1.b1 c2.b1,
     List.zipWith f c1.W2 c2.W2, f c1.b2 c2.b2⟩
  map3 f c1 c2 c3 :=
    ⟨List.zipWith (fun (pr : Vec × Vec) w => List.zipWith
        (fun (p : ℝ × ℝ) z => f p.1 p.2 z) (pr.1.zip pr.2) w)
        (c1.W0.zip c2.W0) c3.W0,
     List.zipWith (fun (p : ℝ × ℝ) z => f p.1 p.2 z) (c1.b0.zip c2.b0) c3.b0,
     List.zipWith (fun (pr : Vec × Vec) w => List.zipWith
        (fun (p : ℝ × ℝ) z => f p.1 p.2 z) (pr.1.zip pr.2) w)
        (c1.W1.zip c2.W1) c3.W1,
     List.zipWith (fun (p : ℝ × ℝ) z => f p.1 p.2 z) (c1.b1.zip c2.b1) c3.b1,
     List.zipWith (fun (p : ℝ × ℝ) z => f p.1 p.2 z) (c1.W2.zip c2.W2) c3.W2,
     f c1.b2 c2.b2 c3.b2⟩
  zeros c :=
    ⟨c.W0.map (List.map fun _ => 0), c.b0.map fun _ => 0,
     c.W1.map (List.map fun _ => 0), c.b1.map fun _ => 0,
     c.W2.map fun _ => 0, 0⟩

/-- Elementwise operations on proposal parameter dicts (matched by key). -/
def pdictOps : ParamOps PDict where
  map2 f d1 d2 := d1.map fun kv => (kv.1, List.zipWith f kv.2 (dget d2 kv.1))
  map3 f d1 d2 d3 := d1.map fun kv =>
    (kv.1, List.zipWith (fun (p : ℝ × ℝ) z => f p.1 p.2 z)
      (kv.2.zip (dget d2 kv.1)) (dget d3 kv.1))
  zeros d := d.map fun kv => (kv.1, List.replicate kv.2.length (0:ℝ))

-- Training loop (lines 139-156)

/-- The observable operations of the training loop, in program order. -/
inductive Ev
  | criticStep (k : ℕ)
  | criticCommit
  | proposalStep (k : ℕ)
  | proposalCommit
  | criticReset
  | record
deriving DecidableEq

/-- The mutable program state during training: the two caller-owned
parameter structures, the two optimizer states, the diagnostic
`loss_d` trace (line 142), and the log of operations performed. -/
structure LoopState where
  pc : Critic
  pp : PDict
  optC : AdamState Critic
  optP : AdamState PDict
  trace : List ℝ
  events : List Ev

/-- `opt_critic.step(k)` (lines 139, 153): `k` Adam iterations against
`grad_loss_critic` with `step_size=0.01, b1=0.5, b2=0.5` (line 135).
`gradC` stands for `ag.grad(loss_critic)`, whose pointwise values none
of the loop claims depend on; `e` is the optimizer's numerical-stability
constant. -/
def criticStepsPhase (gradC : Critic → ℕ → Critic) (e : ℝ) (k : ℕ)
    (s : LoopState) : LoopState :=
  { s with
    optC := adamStepN criticOps gradC (1/100) (1/2) (1/2) e k s.optC,
    events := s.events ++ [Ev.criticStep k] }

/-- `opt_critic.move_to(params_critic)` (lines 140, 154): commit the
critic optimizer's trial parameters into the caller-owned structure. -/
def criticCommitPhase (s : LoopState) : LoopState :=
  { s with pc := s.optC.x, events := s.events ++ [Ev.criticCommit] }

/-- `opt_proposal.step(k)` (line 148): `k` Adam iterations whose gradient
function is `approx_grad_u` itself (line 136), reading the CURRENT
caller-owned critic parameters, with `step_size=0.01, b1=0.1, b2=0.1`
(line 137). -/
def proposalStepPhase (G : ℕ → ℝ) (S : ℕ → RNG) (e : ℝ) (k : ℕ)
    (s : LoopState) : LoopState :=
  { s with
    optP := adamStepN pdictOps
      (fun p t => approx_grad_u G S s.pc p t gamma)
      (1/100) (1/10) (1/10) e k s.optP,
    events := s.events ++ [Ev.proposalStep k] }

/-- `opt_proposal.move_to(params_proposal)` (line 149). -/
def proposalCommitPhase (s : LoopState) : LoopState :=
  { s with pp := s.optP.x, events := s.events ++ [Ev.proposalCommit] }

/-- `opt_critic.reset()` (line 152): clear the critic optimizer's moment
state. -/
def criticResetPhase (s : LoopState) : LoopState :=
  { s with optC := adamReset criticOps s.optC,
           events := s.events ++ [Ev.criticReset] }

/-- `loss_d.append(-loss_critic(params_critic, i, batch_size=5000))`
(line 156): one diagnostic scalar per outer iteration, the negative
critic loss on a batch of size 5000 at the current parameters. -/
def diagPhase (Xo : List Vec) (G : ℕ → ℝ) (S : ℕ → RNG) (i : ℕ)
    (s : LoopState) : LoopState :=
  { s with
    trace := s.trace ++
      [-(loss_critic Xo s.pp G S s.pc i lambda_gp 5000).getD 0],
    events := s.events ++ [Ev.record] }

/-- One outer iteration of the loop body (lines 144-156), plotting
excluded: proposal step, proposal commit, critic reset, 100 critic
steps, critic commit, diagnostic record. -/
def runBody (Xo : List Vec) (G : ℕ → ℝ) (S : ℕ → RNG)
    (gradC : Critic → ℕ → Critic) (e : ℝ) (i : ℕ) (s : LoopState) :
    LoopState :=
  diagPhase Xo G S i
    (criticCommitPhase
      (criticStepsPhase gradC e 100
        (criticResetPhase
          (proposalCommitPhase
            (proposalStepPhase G S e 1 s)))))

/-- `for i in range(...)` over the loop body: `fuel` iterations remain
and `i` is the current loop index. -/
def runIters (Xo : List Vec) (G : ℕ → ℝ) (S : ℕ → RNG)
    (gradC : Critic → ℕ → Critic) (e : ℝ) :
    ℕ → ℕ → LoopState → LoopState
  | 0, _, s => s
  | fuel + 1, i, s =>
    runIters Xo G S gradC e fuel (i + 1) (runBody Xo G S gradC e i s)

/-- The whole training loop (lines 139-156): a critic warmup of 100
steps followed by a commit, then `n` outer iterations of the body. -/
def runProgram (Xo : List Vec) (G : ℕ → ℝ) (S : ℕ → RNG)
    (gradC : Critic → ℕ → Critic) (e : ℝ) (n : ℕ) (s : LoopState) :
    LoopState :=
  runIters Xo G S gradC e n 0
    (criticCommitPhase (criticStepsPhase gradC e 100 s))

-- Helper lemmas about the loop

lemma runBody_events (Xo : List Vec) (G : ℕ → ℝ) (S : ℕ → RNG)
    (gradC : Critic → ℕ → Critic) (e : ℝ) (i : ℕ) (s : LoopState) :
    (runBody Xo G S gradC e i s).events = s.events ++
      [Ev.proposalStep 1, Ev.proposalCommit, Ev.criticReset,
       Ev.criticStep 100, Ev.criticCommit, Ev.record] := by
  simp [runBody, diagPhase, criticCommitPhase, criticStepsPhase,
    criticResetPhase, proposalCommitPhase, proposalStepPhase]

lemma runIters_events (Xo : List Vec) (G : ℕ → ℝ) (S : ℕ → RNG)
    (gradC : Critic → ℕ → Critic) (e : ℝ) :
    ∀ (fuel i : ℕ) (s : LoopState),
      (runIters Xo G S gradC e fuel i s).events = s.events ++
        (List.replicate fuel
          [Ev.proposalStep 1, Ev.proposalCommit, Ev.criticReset,
           Ev.criticStep 100, Ev.criticCommit, Ev.record]).flatten := by
  intro fuel
  induction fuel with
  | zero => intro i s; simp [runIters]
  | succ n ih =>
    intro i s
    rw [runIters, ih, runBody_events]
    simp [List.replicate_succ]

lemma runBody_trace (Xo : List Vec) (G : ℕ → ℝ) (S : ℕ → RNG)
    (gradC : Critic → ℕ → Critic) (e : ℝ) (i : ℕ) (s : LoopState) :
    (runBody Xo G S gradC e i s).trace = s.trace ++
      [-(loss_critic Xo
          (criticCommitPhase (criticStepsPhase gradC e 100
            (criticResetPhase (proposalCommitPhase
              (proposalStepPhase G S e 1 s))))).pp G S
          (criticCommitPhase (criticStepsPhase gradC e 100
            (criticResetPhase (proposalCommitPhase
              (proposalStepPhase G S e 1 s))))).pc i lambda_gp 5000).getD 0] := by
  simp [runBody, diagPhase, criticCommitPhase, criticStepsPhase,
    criticResetPhase, proposalCommitPhase, proposalStepPhase]

lemma runIters_trace_appendOnly (Xo : List Vec) (G : ℕ → ℝ) (S : ℕ → RNG)
    (gradC : Critic → ℕ → Critic) (e : ℝ) :
    ∀ (fuel i : ℕ) (s : LoopState),
      ∃ ext : List ℝ,
        (runIters Xo G S gradC e fuel i s).trace = s.trace ++ ext := by
  intro fuel
  induction fuel with
  | zero => intro i s; exact ⟨[], by simp [runIters]⟩
  | succ n ih =>
    intro i s
    have hv := runBody_trace Xo G S gradC e i s
    obtain ⟨ext, hext⟩ := ih (i + 1) (runBody Xo G S gradC e i s)
    refine ⟨[-(loss_critic Xo
        (criticCommitPhase (criticStepsPhase gradC e 100
          (criticResetPhase (proposalCommitPhase
            (proposalStepPhase G S e 1 s))))).pp G S
        (criticCommitPhase (criticStepsPhase gradC e 100
          (criticResetPhase (proposalCommitPhase
            (proposalStepPhase G S e 1 s))))).pc i lambda_gp 5000).getD 0]
      ++ ext, ?_⟩
    rw [runIters, hext, hv, List.append_assoc]

lemma runBody_core_congr (Xo : List Vec) (G : ℕ → ℝ) (S : ℕ → RNG)
    (gradC : Critic → ℕ → Critic) (e : ℝ) (i : ℕ) (s t : LoopState)
    (hpc : s.pc = t.pc) (hpp : s.pp = t.pp) (hoc : s.optC = t.optC)
    (hop : s.optP = t.optP) (hev : s.events = t.events) :
    (runBody Xo G S gradC e i s).pc = (runBody Xo G S gradC e i t).pc ∧
    (runBody Xo G S gradC e i s).pp = (runBody Xo G S gradC e i t).pp ∧
    (runBody Xo G S gradC e i s).optC = (runBody Xo G S gradC e i t).optC ∧
    (runBody Xo G S gradC e i s).optP = (runBody Xo G S gradC e i t).optP ∧
    (runBody Xo G S gradC e i s).events =
      (runBody Xo G S gradC e i t).events := by
  cases s; cases t
  simp only at hpc hpp hoc hop hev
  subst hpc; subst hpp; subst hoc; subst hop; subst hev
  simp [runBody, diagPhase, criticCommitPhase, criticStepsPhase,
    criticResetPhase, proposalCommitPhase, proposalStepPhase]

lemma runIters_core_congr (Xo : List Vec) (G : ℕ → ℝ) (S : ℕ → RNG)
    (gradC : Critic → ℕ → Critic) (e : ℝ) :
    ∀ (fuel i : ℕ) (s t : LoopState),
      s.pc = t.pc → s.pp = t.pp → s.optC = t.optC → s.optP = t.optP →
      s.events = t.events →
      (runIters Xo G S gradC e fuel i s).pc =
        (runIters Xo G S gradC e fuel i t).pc ∧
      (runIters Xo G S gradC e fuel i s).pp =
        (runIters Xo G S gradC e fuel i t).pp ∧
      (runIters Xo G S gradC e fuel i s).optC =
        (runIters Xo G S gradC e fuel i t).optC ∧
      (runIters Xo G S gradC e fuel i s).optP =
        (runIters Xo G S gradC e fuel i t).optP ∧
      (runIters Xo G S gradC e fuel i s).events =
        (runIters Xo G S gradC e fuel i t).events := by
  intro fuel
  induction fuel with
  | zero => intro i s t h1 h2 h3 h4 h5; exact ⟨h1, h2, h3, h4, h5⟩
  | succ n ih =>
    intro i s t h1 h2 h3 h4 h5
    obtain ⟨g1, g2, g3, g4, g5⟩ :=
      runBody_core_congr Xo G S gradC e i s t h1 h2 h3 h4 h5
    exact ih (i + 1) _ _ g1 g2 g3 g4 g5

/-- C3: the training loop executes exactly this sequence: a critic
warmup of 100 optimizer steps followed by a commit before any proposal
update; then for each of exactly `n_epochs` outer iterations, in order:
one proposal optimizer step followed by a proposal commit, a reset of
the critic optimizer's moment state, 100 critic optimizer steps
followed by a critic commit, and one diagnostic recording; the loop
terminates after `n_epochs` outer iterations with no convergence-based
early stop. -/
theorem c3_training_loop_sequence (Xo : List Vec) (G : ℕ → ℝ)
    (S : ℕ → RNG) (gradC : Critic → ℕ → Critic) (e : ℝ) (s : LoopState) :
    (runProgram Xo G S gradC e n_epochs s).events =
      s.events ++ ([Ev.criticStep 100, Ev.criticCommit] ++
        (List.replicate n_epochs
          [Ev.proposalStep 1, Ev.proposalCommit, Ev.criticReset,
           Ev.criticStep 100, Ev.criticCommit, Ev.record]).flatten) := by
  rw [runProgram, runIters_events]
  simp [criticCommitPhase, criticStepsPhase]

/-- C6: the critic parameter structure is mutated only by the critic
optimizer's commit, and the variational parameter structure only by the
proposal optimizer's commit: every other loop phase (proposal step,
critic reset, critic steps, the diagnostic evaluation) leaves both
caller-owned structures unchanged, the proposal commit leaves the
critic parameters unchanged, and the critic commit leaves the proposal
parameters unchanged. -/
theorem c6_params_mutated_only_by_commits (Xo : List Vec) (G : ℕ → ℝ)
    (S : ℕ → RNG) (gradC : Critic → ℕ → Critic) (e : ℝ) (i k : ℕ)
    (s : LoopState) :
    ((proposalStepPhase G S e k s).pc = s.pc ∧
     (proposalStepPhase G S e k s).pp = s.pp) ∧
    (proposalCommitPhase s).pc = s.pc ∧
    ((criticResetPhase s).pc = s.pc ∧ (criticResetPhase s).pp = s.pp) ∧
    ((criticStepsPhase gradC e k s).pc = s.pc ∧
     (criticStepsPhase gradC e k s).pp = s.pp) ∧
    (criticCommitPhase s).pp = s.pp ∧
    ((diagPhase Xo G S i s).pc = s.pc ∧ (diagPhase Xo G S i s).pp = s.pp) :=
  ⟨⟨rfl, rfl⟩, rfl, ⟨rfl, rfl⟩, ⟨rfl, rfl⟩, rfl, rfl, rfl⟩

/-- C7: each outer iteration appends exactly one scalar — the negative
critic loss evaluated on a batch of size 5000 at the then-current
parameters — to the loss trace; the diagnostic evaluation leaves both
parameter structures and both optimizer states unchanged; the trace is
append-only across the loop; and the trace is never read back: the
parameter and optimizer components of the loop state after any number
of iterations do not depend on the trace contents. -/
theorem c7_loss_trace_diagnostic (Xo : List Vec) (G : ℕ → ℝ)
    (S : ℕ → RNG) (gradC : Critic → ℕ → Critic) (e : ℝ)
    (fuel i : ℕ) (s : LoopState) (tr : List ℝ) :
    (diagPhase Xo G S i s).trace = s.trace ++
      [-(loss_critic Xo s.pp G S s.pc i lambda_gp 5000).getD 0] ∧
    ((diagPhase Xo G S i s).pc = s.pc ∧ (diagPhase Xo G S i s).pp = s.pp ∧
     (diagPhase Xo G S i s).optC = s.optC ∧
     (diagPhase Xo G S i s).optP = s.optP) ∧
    (runBody Xo G S gradC e i s).trace.length = s.trace.length + 1 ∧
    (∃ ext : List ℝ,
      (runIters Xo G S gradC e fuel i s).trace = s.trace ++ ext) ∧
    ((runIters Xo G S gradC e fuel i { s with trace := tr }).pc =
       (runIters Xo G S gradC e fuel i s).pc ∧
     (runIters Xo G S gradC e fuel i { s with trace := tr }).pp =
       (runIters Xo G S gradC e fuel i s).pp ∧
     (runIters Xo G S gradC e fuel i { s with trace := tr }).optC =
       (runIters Xo G S gradC e fuel i s).optC ∧
     (runIters Xo G S gradC e fuel i { s with trace := tr }).optP =
       (runIters Xo G S gradC e fuel i s).optP) := by
  refine ⟨rfl, ⟨rfl, rfl, rfl, rfl⟩, ?_, ?_, ?_⟩
  · rw [runBody_trace]; simp
  · exact runIters_trace_appendOnly Xo G S gradC e fuel i s
  · obtain ⟨g1, g2, g3, g4, _⟩ := runIters_core_congr Xo G S gradC e fuel i
      { s with trace := tr } s rfl rfl rfl rfl rfl
    exact ⟨g1, g2, g3, g4⟩

-- Concrete fixtures used by the witness and counterexample theorems

/-- A small two-dimensional proposal dict (location 0, log-scale 0). -/
def ppW : PDict := [("location", [(0:ℝ), 0]), ("log_scale", [(0:ℝ), 0])]

/-- A width-1 critic whose forward map on positive scalar inputs is the
identity (all weights 1, all biases 0). -/
def pcW : Critic := ⟨[[1]], [0], [[1]], [0], [1], 0⟩

/-- A concrete seeded stream: every standard-normal draw is 0, every
permutation is the identity permutation, every uniform draw is 1. -/
def rngW : RNG := ⟨fun _ => 0, fun n => List.range n, fun _ => 1⟩

/-- The seeded-stream family whose every seed yields `rngW`. -/
def SW : ℕ → RNG := fun _ => rngW

/-- A global unseeded tape whose every draw is 0. -/
def GW : ℕ → ℝ := fun _ => 0

/-- A second global unseeded tape whose every draw is 1. -/
def GW1 : ℕ → ℝ := fun _ => 1

/-- A concrete two-row observed data set. -/
def XoW : List Vec := [[(1:ℝ)], [(1:ℝ)]]

-- Lengths of the loss_critic batch pieces

lemma lcThetas_length (pp : PDict) (G : ℕ → ℝ) (bs : ℕ) :
    (lcThetas pp G bs).length = bs / 2 := by
  simp [lcThetas, gaussian_draw]

lemma lcXGen_length (pp : PDict) (G : ℕ → ℝ) (S : ℕ → RNG) (i bs : ℕ) :
    (lcXGen pp G S i bs).length = bs / 2 := by
  simp [lcXGen, lcThetas_length]

lemma lcXReal_length (Xo : List Vec) (S : ℕ → RNG) (i bs : ℕ)
    (hlen : (lcIndices S i Xo.length).length = Xo.length)
    (hk : bs / 2 ≤ Xo.length) :
    (lcXReal Xo S i bs).length = bs / 2 := by
  simp [lcXReal, hlen, hk]

/-- C9: the stacked critic batch places the `batch_size//2`
simulator-generated rows first and the `batch_size//2` real rows second;
the label vector is 0 on the first half and 1 on the second half, so
every label stays paired with its row; and the real rows are drawn
without replacement (distinct in-range indices) via a random
permutation of the observed data's indices. -/
theorem c9_batch_layout (Xo : List Vec) (pp : PDict) (G : ℕ → ℝ)
    (S : ℕ → RNG) (i bs k : ℕ) (hbs : bs = 2 * k) (hk : k ≤ Xo.length)
    (hperm : (lcIndices S i Xo.length).Perm (List.range Xo.length)) :
    lcX Xo pp G S i bs = lcXGen pp G S i bs ++ lcXReal Xo S i bs ∧
    (lcXGen pp G S i bs).length = k ∧
    (lcXReal Xo S i bs).length = k ∧
    y_critic bs = List.replicate k (0:ℝ) ++ List.replicate k (1:ℝ) ∧
    ((lcIndices S i Xo.length).take k).Nodup ∧
    (∀ m ∈ (lcIndices S i Xo.length).take k, m < Xo.length) ∧
    (∀ j, j < k → (lcXReal Xo S i bs).getD j [] =
      Xo.getD ((lcIndices S i Xo.length).getD j 0) []) := by
  have hbs2 : bs / 2 = k := by omega
  have hplen : (lcIndices S i Xo.length).length = Xo.length := by
    rw [hperm.length_eq, List.length_range]
  refine ⟨rfl, ?_, ?_, ?_, ?_, ?_, ?_⟩
  · rw [lcXGen_length, hbs2]
  · rw [lcXReal_length Xo S i bs hplen (by omega), hbs2]
  · have h3 : bs - k = k := by omega
    simp only [y_critic, hbs2, h3]
  · exact ((List.take_sublist k _).nodup
      (hperm.nodup_iff.mpr (List.nodup_range _)))
  · intro m hm
    have := hperm.mem_iff.mp (List.mem_of_mem_take hm)
    exact List.mem_range.mp this
  · intro j hj
    have hj1 : j < ((lcIndices S i Xo.length).take k).length := by
      rw [List.length_take, hplen]
      omega
    have hj2 : j < (lcXReal Xo S i bs).length := by
      rw [lcXReal_length Xo S i bs hplen (by omega), hbs2]
      exact hj
    have hj3 : j < (lcIndices S i Xo.length).length := by omega
    rw [List.getD_eq_getElem _ _ hj2, List.getD_eq_getElem _ _ hj3]
    simp only [lcXReal, hbs2]
    rw [List.getElem_map, List.getElem_take]

/-- Witness for C9 at a concrete two-row data set, batch size 2, seed 0. -/
theorem c9_batch_layout_witness :
    ((2:ℕ) = 2 * 1 ∧ 1 ≤ XoW.length ∧
      (lcIndices SW 0 XoW.length).Perm (List.range XoW.length)) ∧
    (lcX XoW ppW GW SW 0 2 = lcXGen ppW GW SW 0 2 ++ lcXReal XoW SW 0 2 ∧
     (lcXGen ppW GW SW 0 2).length = 1 ∧
     (lcXReal XoW SW 0 2).length = 1 ∧
     y_critic 2 = List.replicate 1 (0:ℝ) ++ List.replicate 1 (1:ℝ) ∧
     ((lcIndices SW 0 XoW.length).take 1).Nodup ∧
     (∀ m ∈ (lcIndices SW 0 XoW.length).take 1, m < XoW.length) ∧
     (∀ j, j < 1 → (lcXReal XoW SW 0 2).getD j [] =
       XoW.getD ((lcIndices SW 0 XoW.length).getD j 0) [])) := by
  have h : lcIndices SW 0 XoW.length = List.range XoW.length := by
    simp [lcIndices, SW, rngW]
  have hperm : (lcIndices SW 0 XoW.length).Perm (List.range XoW.length) :=
    h ▸ List.Perm.refl _
  exact ⟨⟨by norm_num, by simp [XoW], hperm⟩,
    c9_batch_layout XoW ppW GW SW 0 2 1 (by norm_num) (by simp [XoW]) hperm⟩

-- Setup (lines 134-137) and configuration handling, for C5

/-- Optimizer setup (lines 134-137): both optimizer states are built
unconditionally.  The source contains no configuration validation of
any kind; in particular `batch_size` is never inspected outside
`loss_critic` itself. -/
def setupOptimizers (pc : Critic) (pp : PDict) :
    AdamState Critic × AdamState PDict :=
  (mkAdam criticOps pc, mkAdam pdictOps pp)

/-- The setup behavior the claim describes, following the claim's words
for comparison with the source's `setupOptimizers`: reject an odd
`batch_size`, a non-positive step size or a non-positive step count
before creating any optimizer state. -/
def setupRequired (bs nsteps : ℕ) (step : ℝ) (pc : Critic) (pp : PDict) :
    Option (AdamState Critic × AdamState PDict) :=
  if bs % 2 = 1 ∨ step ≤ 0 ∨ nsteps = 0 then none
  else some (setupOptimizers pc pp)

lemma lossCritic_odd_none (Xo : List Vec) (pp : PDict) (G : ℕ → ℝ)
    (S : ℕ → RNG) (pc : Critic) (i : ℕ) (lgp : ℝ) (bs : ℕ)
    (hodd : bs % 2 = 1) (hbs3 : 3 ≤ bs)
    (hlen : (lcIndices S i Xo.length).length = Xo.length)
    (hk : bs / 2 ≤ Xo.length) :
    loss_critic Xo pp G S pc i lgp bs = none := by
  have h1 : (y_critic bs).length = bs := by
    simp [y_critic]
    omega
  have h2 : (predict (lcX Xo pp G S i bs) pc).length = bs / 2 + bs / 2 := by
    simp [predict, lcX, lcXGen_length, lcXReal_length Xo S i bs hlen hk]
  have hne :
      ¬ ((y_critic bs).length = (predict (lcX Xo pp G S i bs) pc).length ∨
        (y_critic bs).length = 1 ∨
        (predict (lcX Xo pp G S i bs) pc).length = 1) := by
    rw [h1, h2]
    omega
  simp only [loss_critic, if_neg hne]

/-- At `batch_size = 1` the critic loss does NOT fail: both batch
halves are empty, the score vector has length 0, and numpy broadcasts
the size-1 label vector against it, so the real function returns a
`nan` diagnostic value (means over empty arrays) instead of raising. -/
lemma lossCritic_one_isSome (Xo : List Vec) (pp : PDict) (G : ℕ → ℝ)
    (S : ℕ → RNG) (pc : Critic) (i : ℕ) (lgp : ℝ) :
    (loss_critic Xo pp G S pc i lgp 1).isSome = true := by
  have hy : (y_critic 1).length = 1 := by simp [y_critic]
  simp [loss_critic, hy]

/-- C5 counterexample: the spec-described setup rejects batch size 3,
but the source's setup creates both optimizer states regardless — it
never even receives the batch size — and the critic loss IS evaluated
at batch size 3, failing there with a shape error (`none`), i.e. at
evaluation time, not at setup. -/
theorem c5_counterexample :
    setupRequired 3 100 (1/100) pcW ppW = none ∧
    setupOptimizers pcW ppW = (mkAdam criticOps pcW, mkAdam pdictOps ppW) ∧
    loss_critic XoW ppW GW SW pcW 0 lambda_gp 3 = none := by
  refine ⟨by norm_num [setupRequired], rfl, ?_⟩
  apply lossCritic_odd_none
  · norm_num
  · norm_num
  · simp [lcIndices, SW, rngW]
  · simp [XoW]

/-- C5 amended: the source performs no configuration validation at all:
optimizer setup succeeds unconditionally (it never sees the batch
size), the spec-described validation would have rejected the odd batch
size, and for every odd `batch_size ≥ 3` the critic loss IS reached and
fails there with a shape mismatch between the label vector (length
`batch_size`) and the stacked batch (length `2*(batch_size//2)`,
neither of size 1); the remaining odd case `batch_size = 1` does not
even fail — numpy broadcasts the size-1 label vector against the empty
score vector and the loss silently evaluates to a `nan` diagnostic. -/
theorem c5_no_setup_validation (Xo : List Vec) (pp : PDict) (G : ℕ → ℝ)
    (S : ℕ → RNG) (pc : Critic) (i : ℕ) (lgp : ℝ) (bs : ℕ)
    (hodd : bs % 2 = 1) (hbs3 : 3 ≤ bs)
    (hlen : (lcIndices S i Xo.length).length = Xo.length)
    (hk : bs / 2 ≤ Xo.length) :
    setupRequired bs 100 (1/100) pc pp = none ∧
    setupOptimizers pc pp = (mkAdam criticOps pc, mkAdam pdictOps pp) ∧
    loss_critic Xo pp G S pc i lgp bs = none ∧
    (loss_critic Xo pp G S pc i lgp 1).isSome = true := by
  refine ⟨by simp [setupRequired, hodd], rfl,
    lossCritic_odd_none Xo pp G S pc i lgp bs hodd hbs3 hlen hk,
    lossCritic_one_isSome Xo pp G S pc i lgp⟩

/-- Witness for the amended C5 at batch size 5. -/
theorem c5_no_setup_validation_witness :
    ((5:ℕ) % 2 = 1 ∧ (3:ℕ) ≤ 5 ∧
      (lcIndices SW 0 XoW.length).length = XoW.length ∧
      5 / 2 ≤ XoW.length) ∧
    (setupRequired 5 100 (1/100) pcW ppW = none ∧
     setupOptimizers pcW ppW = (mkAdam criticOps pcW, mkAdam pdictOps ppW) ∧
     loss_critic XoW ppW GW1 SW pcW 0 lambda_gp 5 = none ∧
     (loss_critic XoW ppW GW1 SW pcW 0 lambda_gp 1).isSome = true) :=
  ⟨⟨by norm_num, by norm_num, by simp [lcIndices, SW, rngW], by simp [XoW]⟩,
   c5_no_setup_validation XoW ppW GW1 SW pcW 0 lambda_gp 5 (by norm_num)
     (by norm_num) (by simp [lcIndices, SW, rngW]) (by simp [XoW])⟩

-- Resolving the critic loss on an even batch, for C2 and C8

lemma zipWith_replicate_len (f : ℝ → ℝ → ℝ) (c : ℝ) (l : List ℝ) :
    List.zipWith f (List.replicate l.length c) l = l.map (f c) := by
  induction l with
  | nil => simp
  | cons x xs ih => simpa [List.replicate_succ] using ih

lemma sum_map_negReal (l : List ℝ) : (l.map fun x => -x).sum = -l.sum := by
  induction l with
  | nil => simp
  | cons x xs ih =>
    simp [ih]
    ring

lemma y_critic_even (bs k : ℕ) (hbs : bs = 2 * k) :
    y_critic bs = List.replicate k (0:ℝ) ++ List.replicate k (1:ℝ) := by
  have h2 : bs / 2 = k := by omega
  have h3 : bs - k = k := by omega
  simp only [y_critic, h2, h3]

lemma lcXHat_length (Xo : List Vec) (pp : PDict) (G : ℕ → ℝ)
    (S : ℕ → RNG) (i bs : ℕ)
    (hlen : (lcIndices S i Xo.length).length = Xo.length)
    (hk : bs / 2 ≤ Xo.length) :
    (lcXHat Xo pp G S i bs).length = bs / 2 := by
  simp [lcXHat, lcEps, lcXGen_length, lcXReal_length Xo S i bs hlen hk]

lemma loss_critic_even (Xo : List Vec) (pp : PDict) (G : ℕ → ℝ)
    (S : ℕ → RNG) (pc : Critic) (i : ℕ) (lgp : ℝ) (bs k : ℕ)
    (hbs : bs = 2 * k) (hk : k ≤ Xo.length)
    (hlen : (lcIndices S i Xo.length).length = Xo.length) :
    loss_critic Xo pp G S pc i lgp bs =
      some (lcWasserstein Xo pp G S pc i bs +
        lgp * lcGradPenalty Xo pp G S pc i bs) := by
  have hk2 : bs / 2 ≤ Xo.length := by omega
  have h1 : (y_critic bs).length = bs := by
    simp [y_critic]
    omega
  have h2 : (predict (lcX Xo pp G S i bs) pc).length = bs := by
    simp [predict, lcX, lcXGen_length, lcXReal_length Xo S i bs hlen hk2]
    omega
  simp [loss_critic, h1, h2]

lemma predict_append (A B : List Vec) (pc : Critic) :
    predict (A ++ B) pc = predict A pc ++ predict B pc := by
  simp [predict]

lemma lcWasserstein_resolved (Xo : List Vec) (pp : PDict) (G : ℕ → ℝ)
    (S : ℕ → RNG) (pc : Critic) (i : ℕ) (bs k : ℕ)
    (hbs : bs = 2 * k) (hk : k ≤ Xo.length)
    (hlen : (lcIndices S i Xo.length).length = Xo.length) :
    lcWasserstein Xo pp G S pc i bs =
      ((predict (lcXGen pp G S i bs) pc).sum -
        (predict (lcXReal Xo S i bs) pc).sum) / (bs:ℝ) := by
  have hk2 : bs / 2 ≤ Xo.length := by omega
  have hgen : (predict (lcXGen pp G S i bs) pc).length = k := by
    simp [predict, lcXGen_length]
    omega
  have hreal : (predict (lcXReal Xo S i bs) pc).length = k := by
    simp [predict, lcXReal_length Xo S i bs hlen hk2]
    omega
  rw [lcWasserstein, y_critic_even bs k hbs, lcX, predict_append]
  rw [List.zipWith_append _ _ _ _ _
    (by rw [List.length_replicate]; exact hgen.symm)]
  rw [show List.replicate k (0:ℝ) =
        List.replicate (predict (lcXGen pp G S i bs) pc).length (0:ℝ) by
      rw [hgen],
      show List.replicate k (1:ℝ) =
        List.replicate (predict (lcXReal Xo S i bs) pc).length (1:ℝ) by
      rw [hreal]]
  rw [zipWith_replicate_len, zipWith_replicate_len]
  have hmap0 : (predict (lcXGen pp G S i bs) pc).map
      (fun yp => -(0:ℝ) * yp + (1 - 0) * yp) =
      predict (lcXGen pp G S i bs) pc := by
    rw [List.map_congr_left (g := id) (fun x _ => by simp)]
    exact List.map_id _
  have hmap1 : (predict (lcXReal Xo S i bs) pc).map
      (fun yp => -(1:ℝ) * yp + (1 - 1) * yp) =
      (predict (lcXReal Xo S i bs) pc).map (fun x => -x) :=
    List.map_congr_left (fun x _ => by ring)
  rw [hmap0, hmap1, npMean, List.sum_append, sum_map_negReal]
  rw [List.length_append, List.length_map, hgen, hreal]
  have hcast : ((k + k : ℕ) : ℝ) = (bs : ℝ) := by
    norm_cast
    omega
  rw [hcast]
  ring

lemma lcGradPenalty_resolved (Xo : List Vec) (pp : PDict) (G : ℕ → ℝ)
    (S : ℕ → RNG) (pc : Critic) (i : ℕ) (bs k : ℕ)
    (hbs : bs = 2 * k) (hk : k ≤ Xo.length)
    (hlen : (lcIndices S i Xo.length).length = Xo.length) :
    lcGradPenalty Xo pp G S pc i bs =
      ((lcXHat Xo pp G S i bs).map
        fun r => (gradNorm pc r - 1) ^ 2).sum / (k:ℝ) := by
  have hk2 : bs / 2 ≤ Xo.length := by omega
  have hh : (lcXHat Xo pp G S i bs).length = k := by
    rw [lcXHat_length Xo pp G S i bs hlen hk2]
    omega
  rw [lcGradPenalty, npMean, List.length_map, hh]

/-- C2: for every even batch size `bs = 2k`, the critic loss is the
Wasserstein term `mean(-label*score + (1-label)*score)` over a batch of
`k` simulator-generated rows carrying label 0 and `k` real rows
carrying label 1 — which resolves to
`(sum of generated scores − sum of real scores) / bs` — plus
`lambda_gp` times `mean((‖grad_x score(x_hat)‖₂ − 1)²)`, where the
`j`-th interpolated row is `eps_j · x_real_j + (1 − eps_j) · x_gen_j`
with one uniform draw `eps_j` per generated/real pair. -/
theorem c2_loss_critic_formula (Xo : List Vec) (pp : PDict) (G : ℕ → ℝ)
    (S : ℕ → RNG) (pc : Critic) (i : ℕ) (lgp : ℝ) (bs k : ℕ)
    (hbs : bs = 2 * k) (hk : k ≤ Xo.length)
    (hlen : (lcIndices S i Xo.length).length = Xo.length) :
    loss_critic Xo pp G S pc i lgp bs = some
      (((predict (lcXGen pp G S i bs) pc).sum -
        (predict (lcXReal Xo S i bs) pc).sum) / (bs:ℝ) +
       lgp * (((lcXHat Xo pp G S i bs).map
          fun r => (gradNorm pc r - 1) ^ 2).sum / (k:ℝ))) ∧
    (lcEps S i bs).length = k ∧
    (lcXHat Xo pp G S i bs).length = k ∧
    (∀ j, j < k → (lcXHat Xo pp G S i bs).getD j [] =
      List.zipWith
        (fun xo xg => (S i).unif j * xo + (1 - (S i).unif j) * xg)
        ((lcXReal Xo S i bs).getD j []) ((lcXGen pp G S i bs).getD j [])) := by
  have hk2 : bs / 2 ≤ Xo.length := by omega
  have hb2 : bs / 2 = k := by omega
  refine ⟨?_, ?_, ?_, ?_⟩
  · rw [loss_critic_even Xo pp G S pc i lgp bs k hbs hk hlen,
      lcWasserstein_resolved Xo pp G S pc i bs k hbs hk hlen,
      lcGradPenalty_resolved Xo pp G S pc i bs k hbs hk hlen]
  · simp [lcEps, hb2]
  · rw [lcXHat_length Xo pp G S i bs hlen hk2, hb2]
  · intro j hj
    have hhat : j < (lcXHat Xo pp G S i bs).length := by
      rw [lcXHat_length Xo pp G S i bs hlen hk2]
      omega
    have hre : j < (lcXReal Xo S i bs).length := by
      rw [lcXReal_length Xo S i bs hlen hk2]
      omega
    have hge : j < (lcXGen pp G S i bs).length := by
      rw [lcXGen_length]
      omega
    rw [List.getD_eq_getElem _ _ hhat, List.getD_eq_getElem _ _ hre,
      List.getD_eq_getElem _ _ hge]
    simp only [lcXHat, List.getElem_zipWith, List.getElem_zip, lcEps,
      List.getElem_map, List.getElem_range]

/-- Witness for C2 at the concrete fixtures, batch size 2, seed 0. -/
theorem c2_loss_critic_formula_witness :
    ((2:ℕ) = 2 * 1 ∧ 1 ≤ XoW.length ∧
      (lcIndices SW 0 XoW.length).length = XoW.length) ∧
    (loss_critic XoW ppW GW SW pcW 0 lambda_gp 2 = some
      (((predict (lcXGen ppW GW SW 0 2) pcW).sum -
        (predict (lcXReal XoW SW 0 2) pcW).sum) / ((2:ℕ):ℝ) +
       lambda_gp * (((lcXHat XoW ppW GW SW 0 2).map
          fun r => (gradNorm pcW r - 1) ^ 2).sum / ((1:ℕ):ℝ))) ∧
     (lcEps SW 0 2).length = 1 ∧
     (lcXHat XoW ppW GW SW 0 2).length = 1 ∧
     (∀ j, j < 1 → (lcXHat XoW ppW GW SW 0 2).getD j [] =
       List.zipWith
         (fun xo xg => (SW 0).unif j * xo + (1 - (SW 0).unif j) * xg)
         ((lcXReal XoW SW 0 2).getD j [])
         ((lcXGen ppW GW SW 0 2).getD j []))) :=
  ⟨⟨by norm_num, by simp [XoW], by simp [lcIndices, SW, rngW]⟩,
   c2_loss_critic_formula XoW ppW GW SW pcW 0 lambda_gp 2 1 (by norm_num)
     (by simp [XoW]) (by simp [lcIndices, SW, rngW])⟩

/-- C8: if the critic's per-input gradient has Euclidean norm exactly 1
at every row of the interpolated batch, the gradient-penalty term of
the critic loss is 0, so for every `lambda_gp` the returned loss equals
the pure Wasserstein term alone. -/
theorem c8_unit_grad_norm_pure_wasserstein (Xo : List Vec) (pp : PDict)
    (G : ℕ → ℝ) (S : ℕ → RNG) (pc : Critic) (i : ℕ) (lgp : ℝ) (bs k : ℕ)
    (hbs : bs = 2 * k) (hk : k ≤ Xo.length)
    (hlen : (lcIndices S i Xo.length).length = Xo.length)
    (hnorm : ∀ r ∈ lcXHat Xo pp G S i bs, gradNorm pc r = 1) :
    lcGradPenalty Xo pp G S pc i bs = 0 ∧
    loss_critic Xo pp G S pc i lgp bs =
      some (lcWasserstein Xo pp G S pc i bs) := by
  have hgp : lcGradPenalty Xo pp G S pc i bs = 0 := by
    rw [lcGradPenalty]
    have hmap : (lcXHat Xo pp G S i bs).map
        (fun r => (gradNorm pc r - 1) ^ 2) =
        (lcXHat Xo pp G S i bs).map (fun _ => (0:ℝ)) :=
      List.map_congr_left (fun r hr => by rw [hnorm r hr]; ring)
    rw [hmap]
    simp [npMean]
  refine ⟨hgp, ?_⟩
  rw [loss_critic_even Xo pp G S pc i lgp bs k hbs hk hlen, hgp]
  simp

/-- Witness for C8: a synthetic critic (all weights 1, all biases 0)
whose input gradient on the one-row interpolated batch has norm exactly
1, at batch size 2 and seed 0. -/
theorem c8_unit_grad_norm_pure_wasserstein_witness :
    ((2:ℕ) = 2 * 1 ∧ 1 ≤ XoW.length ∧
      (lcIndices SW 0 XoW.length).length = XoW.length ∧
      (∀ r ∈ lcXHat XoW ppW GW SW 0 2, gradNorm pcW r = 1)) ∧
    (lcGradPenalty XoW ppW GW SW pcW 0 2 = 0 ∧
     loss_critic XoW ppW GW SW pcW 0 lambda_gp 2 =
       some (lcWasserstein XoW ppW GW SW pcW 0 2)) := by
  have hhat : lcXHat XoW ppW GW SW 0 2 = [[1]] := by
    norm_num [lcXHat, lcEps, lcXReal, lcXGen, lcThetas, lcIndices,
      gaussian_draw, simulator, dget, ppW, SW, rngW, GW, XoW,
      show List.range 2 = [0, 1] from rfl, show List.range 1 = [0] from rfl]
  have hnorm : ∀ r ∈ lcXHat XoW ppW GW SW 0 2, gradNorm pcW r = 1 := by
    rw [hhat]
    intro r hr
    rw [List.mem_singleton] at hr
    subst hr
    norm_num [gradNorm, gradPredictRow, pcW, dot, relu, reluDeriv,
      show List.range 1 = [0] from rfl, Real.sqrt_one]
  exact ⟨⟨by norm_num, by simp [XoW], by simp [lcIndices, SW, rngW], hnorm⟩,
    c8_unit_grad_norm_pure_wasserstein XoW ppW GW SW pcW 0 lambda_gp 2 1
      (by norm_num) (by simp [XoW]) (by simp [lcIndices, SW, rngW]) hnorm⟩

-- Structure of approx_grad_u, for C1, C10 and C4

lemma pdict_two_keys (pp : PDict)
    (hkeys : dkeys pp = ["location", "log_scale"]) :
    ∃ v1 v2 : Vec, pp = [("location", v1), ("log_scale", v2)] := by
  match pp, hkeys with
  | [(k1, v1), (k2, v2)], hkeys =>
    simp [dkeys] at hkeys
    exact ⟨v1, v2, by rw [hkeys.1, hkeys.2]⟩

lemma gaussian_draw_length (pp : PDict) (n : ℕ) (z : ℕ → ℝ) :
    (gaussian_draw pp n z).length = n := by
  simp [gaussian_draw]

lemma aguStep_explicit (G : ℕ → ℝ) (pc : Critic) (pp : PDict)
    (a b : Vec) (jt : ℕ × Vec) :
    aguStep G pc pp [("location", a), ("log_scale", b)] jt =
      [("location", vadd a (smulV (-(aguScore G pc jt))
          (dget (grad_gaussian_logpdf pp jt.2) "location"))),
       ("log_scale", vadd b (smulV (-(aguScore G pc jt))
          (dget (grad_gaussian_logpdf pp jt.2) "log_scale")))] := by
  simp [aguStep, grad_gaussian_logpdf, dictAddAt, dget]

lemma fold_aguStep (G : ℕ → ℝ) (pc : Critic) (pp : PDict)
    (L : List (ℕ × Vec)) : ∀ a b : Vec,
    L.foldl (aguStep G pc pp) [("location", a), ("log_scale", b)] =
      [("location", L.foldl (fun v jt => vadd v
          (smulV (-(aguScore G pc jt))
            (dget (grad_gaussian_logpdf pp jt.2) "location"))) a),
       ("log_scale", L.foldl (fun v jt => vadd v
          (smulV (-(aguScore G pc jt))
            (dget (grad_gaussian_logpdf pp jt.2) "log_scale"))) b)] := by
  induction L with
  | nil => intro a b; simp
  | cons jt rest ih =>
    intro a b
    rw [List.foldl_cons, aguStep_explicit, ih, List.foldl_cons,
      List.foldl_cons]

lemma vadd_replicate_zero_left (n : ℕ) (v : Vec) (hv : v.length = n) :
    vadd (List.replicate n 0) v = v := by
  subst hv
  induction v with
  | nil => rfl
  | cons x xs ih =>
    simp only [List.length_cons, List.replicate_succ, vadd,
      List.zipWith_cons_cons, zero_add]
    show x :: vadd (List.replicate xs.length 0) xs = x :: xs
    rw [ih]

lemma entropy_fold (pp : PDict) (v1 v2 : Vec)
    (hpp : pp = [("location", v1), ("log_scale", v2)]) :
    (grad_gaussian_entropy pp).foldl (fun a kv => dictAddAt a kv.1 kv.2)
      (aguZeros pp) =
      [("location", List.replicate v1.length (0:ℝ)),
       ("log_scale", List.replicate v2.length (1:ℝ))] := by
  subst hpp
  have h1 : vadd (List.replicate v1.length (0:ℝ))
      (List.replicate v1.length (0:ℝ)) = List.replicate v1.length (0:ℝ) :=
    vadd_replicate_zero_left _ _ (by simp)
  have h2 : vadd (List.replicate v2.length (0:ℝ))
      (List.replicate v2.length (1:ℝ)) = List.replicate v2.length (1:ℝ) :=
    vadd_replicate_zero_left _ _ (by simp)
  simp [grad_gaussian_entropy, aguZeros, dget, dictAddAt, h1, h2]

lemma approx_grad_u_closed (G : ℕ → ℝ) (S : ℕ → RNG) (pc : Critic)
    (pp : PDict) (i : ℕ) (gam : ℝ) (v1 v2 : Vec)
    (hpp : pp = [("location", v1), ("log_scale", v2)]) :
    approx_grad_u G S pc pp i gam =
      [("location", vadd
        (smulV (1/(batch_size:ℝ))
          ((gaussian_draw pp batch_size (S i).normal).enum.foldl
            (fun v jt => vadd v (smulV (-(aguScore G pc jt))
              (dget (grad_gaussian_logpdf pp jt.2) "location")))
            (List.replicate v1.length 0)))
        (smulV gam (List.replicate v1.length (0:ℝ)))),
       ("log_scale", vadd
        (smulV (1/(batch_size:ℝ))
          ((gaussian_draw pp batch_size (S i).normal).enum.foldl
            (fun v jt => vadd v (smulV (-(aguScore G pc jt))
              (dget (grad_gaussian_logpdf pp jt.2) "log_scale")))
            (List.replicate v2.length 0)))
        (smulV gam (List.replicate v2.length (1:ℝ))))] := by
  rw [approx_grad_u, entropy_fold pp v1 v2 hpp, gaussian_draw_length]
  have hz : aguZeros pp =
      [("location", List.replicate v1.length (0:ℝ)),
       ("log_scale", List.replicate v2.length (0:ℝ))] := by
    rw [hpp]
    simp [aguZeros]
  rw [hz, fold_aguStep]
  simp [dget]

/-- C1: `approx_grad_u` draws `M = batch_size` parameter vectors from
the current proposal through the stream seeded with `i`; per parameter
group, the returned GradientDict is the running total of
`-score(x) · grad_log_density(θ)` over those draws — each `x` simulated
exactly once per sampled `θ` and scored by the current critic — divided
by `M`, plus `gamma · grad_entropy()` added exactly once, not scaled by
or averaged over `M`. -/
theorem c1_approx_grad_u_estimator (G : ℕ → ℝ) (S : ℕ → RNG)
    (pc : Critic) (pp : PDict) (i : ℕ) (gam : ℝ)
    (hkeys : dkeys pp = ["location", "log_scale"]) :
    (gaussian_draw pp batch_size (S i).normal).length = batch_size ∧
    dget (approx_grad_u G S pc pp i gam) "location" =
      vadd (smulV (1/(batch_size:ℝ))
        ((gaussian_draw pp batch_size (S i).normal).enum.foldl
          (fun v jt => vadd v (smulV (-(aguScore G pc jt))
            (dget (grad_gaussian_logpdf pp jt.2) "location")))
          (List.replicate (dget pp "location").length 0)))
      (smulV gam (dget (grad_gaussian_entropy pp) "location")) ∧
    dget (approx_grad_u G S pc pp i gam) "log_scale" =
      vadd (smulV (1/(batch_size:ℝ))
        ((gaussian_draw pp batch_size (S i).normal).enum.foldl
          (fun v jt => vadd v (smulV (-(aguScore G pc jt))
            (dget (grad_gaussian_logpdf pp jt.2) "log_scale")))
          (List.replicate (dget pp "log_scale").length 0)))
      (smulV gam (dget (grad_gaussian_entropy pp) "log_scale")) := by
  obtain ⟨v1, v2, hpp⟩ := pdict_two_keys pp hkeys
  subst hpp
  rw [approx_grad_u_closed G S pc _ i gam v1 v2 rfl]
  refine ⟨gaussian_draw_length _ _ _, ?_, ?_⟩
  · simp [dget, grad_gaussian_entropy]
  · simp [dget, grad_gaussian_entropy]

/-- Witness for C1 at the concrete fixtures and seed 0. -/
theorem c1_approx_grad_u_estimator_witness :
    dkeys ppW = ["location", "log_scale"] ∧
    ((gaussian_draw ppW batch_size (SW 0).normal).length = batch_size ∧
     dget (approx_grad_u GW SW pcW ppW 0 gamma) "location" =
       vadd (smulV (1/(batch_size:ℝ))
         ((gaussian_draw ppW batch_size (SW 0).normal).enum.foldl
           (fun v jt => vadd v (smulV (-(aguScore GW pcW jt))
             (dget (grad_gaussian_logpdf ppW jt.2) "location")))
           (List.replicate (dget ppW "location").length 0)))
       (smulV gamma (dget (grad_gaussian_entropy ppW) "location")) ∧
     dget (approx_grad_u GW SW pcW ppW 0 gamma) "log_scale" =
       vadd (smulV (1/(batch_size:ℝ))
         ((gaussian_draw ppW batch_size (SW 0).normal).enum.foldl
           (fun v jt => vadd v (smulV (-(aguScore GW pcW jt))
             (dget (grad_gaussian_logpdf ppW jt.2) "log_scale")))
           (List.replicate (dget ppW "log_scale").length 0)))
       (smulV gamma (dget (grad_gaussian_entropy ppW) "log_scale"))) :=
  ⟨by simp [dkeys, ppW],
   c1_approx_grad_u_estimator GW SW pcW ppW 0 gamma (by simp [dkeys, ppW])⟩

lemma smulV_length (c : ℝ) (v : Vec) : (smulV c v).length = v.length := by
  simp [smulV]

lemma vadd_length (u v : Vec) : (vadd u v).length = min u.length v.length := by
  simp [vadd]

lemma dget_pair_loc (x y : Vec) :
    dget [("location", x), ("log_scale", y)] "location" = x := by
  simp [dget]

lemma dget_pair_ls (x y : Vec) :
    dget [("location", x), ("log_scale", y)] "log_scale" = y := by
  simp [dget]

lemma foldl_vadd_length (f : ℕ × Vec → Vec) (n : ℕ) :
    ∀ (L : List (ℕ × Vec)) (init : Vec), (∀ jt ∈ L, (f jt).length = n) →
      init.length = n →
      (L.foldl (fun v jt => vadd v (f jt)) init).length = n := by
  intro L
  induction L with
  | nil => intro init _ h; exact h
  | cons jt rest ih =>
    intro init hf hinit
    rw [List.foldl_cons]
    refine ih _ (fun a ha => hf a (List.mem_cons_of_mem _ ha)) ?_
    have hjt : (f jt).length = n := hf jt (List.mem_cons_self _ _)
    simp [vadd, hinit, hjt]

/-- C10: on a proposal-parameter dict (groups `location` and
`log_scale`, vectors of equal length), `approx_grad_u` returns a dict
with exactly the same keys, each value a vector of the same length as
the corresponding input parameter vector. -/
theorem c10_approx_grad_u_shapes (G : ℕ → ℝ) (S : ℕ → RNG) (pc : Critic)
    (pp : PDict) (i : ℕ) (gam : ℝ)
    (hkeys : dkeys pp = ["location", "log_scale"])
    (hlen : (dget pp "location").length = (dget pp "log_scale").length) :
    dkeys (approx_grad_u G S pc pp i gam) = dkeys pp ∧
    (dget (approx_grad_u G S pc pp i gam) "location").length =
      (dget pp "location").length ∧
    (dget (approx_grad_u G S pc pp i gam) "log_scale").length =
      (dget pp "log_scale").length := by
  obtain ⟨v1, v2, hpp⟩ := pdict_two_keys pp hkeys
  subst hpp
  simp only [dget_pair_loc, dget_pair_ls] at hlen
  rw [approx_grad_u_closed G S pc _ i gam v1 v2 rfl]
  have hLloc : ∀ jt : ℕ × Vec,
      (smulV (-(aguScore G pc jt))
        (dget (grad_gaussian_logpdf
          [("location", v1), ("log_scale", v2)] jt.2) "location")).length =
        v1.length := by
    intro jt
    simp [smulV, grad_gaussian_logpdf, dget]
  have hLls : ∀ jt : ℕ × Vec,
      (smulV (-(aguScore G pc jt))
        (dget (grad_gaussian_logpdf
          [("location", v1), ("log_scale", v2)] jt.2) "log_scale")).length =
        v1.length := by
    intro jt
    simp [smulV, grad_gaussian_logpdf, dget]
  have hfoldloc := foldl_vadd_length _ v1.length
    (gaussian_draw [("location", v1), ("log_scale", v2)]
      batch_size (S i).normal).enum
    (List.replicate v1.length 0) (fun jt _ => hLloc jt) (by simp)
  have hfoldls := foldl_vadd_length _ v1.length
    (gaussian_draw [("location", v1), ("log_scale", v2)]
      batch_size (S i).normal).enum
    (List.replicate v2.length 0) (fun jt _ => hLls jt)
    (by simp [hlen])
  refine ⟨by simp [dkeys], ?_, ?_⟩
  · simp [dget_pair_loc, vadd_length, smulV_length, hfoldloc]
  · simp [dget_pair_ls, vadd_length, smulV_length, hfoldls, hlen]

/-- Witness for C10 at the concrete fixtures and seed 0. -/
theorem c10_approx_grad_u_shapes_witness :
    (dkeys ppW = ["location", "log_scale"] ∧
     (dget ppW "location").length = (dget ppW "log_scale").length) ∧
    (dkeys (approx_grad_u GW1 SW pcW ppW 0 gamma) = dkeys ppW ∧
     (dget (approx_grad_u GW1 SW pcW ppW 0 gamma) "location").length =
       (dget ppW "location").length ∧
     (dget (approx_grad_u GW1 SW pcW ppW 0 gamma) "log_scale").length =
       (dget ppW "log_scale").length) :=
  ⟨⟨by simp [dkeys, ppW], by simp [dget, ppW]⟩,
   c10_approx_grad_u_shapes GW1 SW pcW ppW 0 gamma
     (by simp [dkeys, ppW]) (by simp [dget, ppW])⟩

-- Seeded versus unseeded randomness, for C4

/-- A global tape agreeing with `GW` on the draws that `loss_critic`
consumes for its proposal draw at batch size 2, but differing from `GW`
afterwards. -/
def GWmix : ℕ → ℝ := fun n => if n < 2 then 0 else 1

lemma foldl_vadd_pair_const {β : Type} (f : β → Vec) (x y : ℝ) :
    ∀ (L : List β), (∀ jt ∈ L, f jt = [x, y]) → ∀ a b : ℝ,
      L.foldl (fun v jt => vadd v (f jt)) [a, b] =
        [a + L.length * x, b + L.length * y] := by
  intro L
  induction L with
  | nil =>
    intro _ a b
    simp
  | cons e rest ih =>
    intro h a b
    rw [List.foldl_cons, h e (List.mem_cons_self _ _)]
    have hv : vadd [a, b] [x, y] = [a + x, b + y] := by
      simp [vadd]
    rw [hv, ih (fun jt hjt => h jt (List.mem_cons_of_mem _ hjt))]
    simp only [List.length_cons]
    push_cast
    have e1 : a + x + (rest.length : ℝ) * x =
        a + ((rest.length : ℝ) + 1) * x := by ring
    have e2 : b + y + (rest.length : ℝ) * y =
        b + ((rest.length : ℝ) + 1) * y := by ring
    rw [e1, e2]

/-- C4 counterexample: two runs of `approx_grad_u` with the SAME seed
(0) and the same seeded-stream family, but different unseeded global
streams, return different gradient estimates — the simulator calls on
line 113 use `random_state=None`, i.e. global entropy, so the parameter
trajectory is not a function of the seed. -/
theorem c4_counterexample :
    approx_grad_u GW SW pcW ppW 0 gamma ≠
      approx_grad_u GW1 SW pcW ppW 0 gamma := by
  have hth : gaussian_draw ppW batch_size (SW 0).normal =
      List.replicate 64 [(0:ℝ), 0] := by
    norm_num [gaussian_draw, dget, ppW, SW, rngW, batch_size,
      show List.range 2 = [0, 1] from rfl]
  have hc0 : ∀ jt ∈ (List.replicate 64 ([(0:ℝ), 0] : Vec)).enum,
      (fun jt2 : ℕ × Vec => smulV (-(aguScore GW pcW jt2))
        (dget (grad_gaussian_logpdf ppW jt2.2) "log_scale")) jt =
        [(0:ℝ), 0] := by
    intro jt hjt
    have h2 : jt.2 = [(0:ℝ), 0] :=
      List.eq_of_mem_replicate (List.snd_mem_of_mem_enum hjt)
    have hstr : ¬ (("location" : String) = "log_scale") := by decide
    norm_num [aguScore, simulator, h2, GW, predictRow, pcW, dot, relu,
      grad_gaussian_logpdf, dget, ppW, smulV, if_neg hstr,
      show List.range 1 = [0] from rfl, show List.range 2 = [0, 1] from rfl]
  have hc1 : ∀ jt ∈ (List.replicate 64 ([(0:ℝ), 0] : Vec)).enum,
      (fun jt2 : ℕ × Vec => smulV (-(aguScore GW1 pcW jt2))
        (dget (grad_gaussian_logpdf ppW jt2.2) "log_scale")) jt =
        [(1:ℝ), 1] := by
    intro jt hjt
    have h2 : jt.2 = [(0:ℝ), 0] :=
      List.eq_of_mem_replicate (List.snd_mem_of_mem_enum hjt)
    have hstr : ¬ (("location" : String) = "log_scale") := by decide
    norm_num [aguScore, simulator, h2, GW1, predictRow, pcW, dot, relu,
      grad_gaussian_logpdf, dget, ppW, smulV, if_neg hstr,
      show List.range 1 = [0] from rfl, show List.range 2 = [0, 1] from rfl]
  intro heq
  have hls := congrArg (fun d => dget d "log_scale") heq
  simp only [] at hls
  rw [approx_grad_u_closed GW SW pcW ppW 0 gamma [(0:ℝ), 0] [(0:ℝ), 0] rfl,
    approx_grad_u_closed GW1 SW pcW ppW 0 gamma [(0:ℝ), 0] [(0:ℝ), 0] rfl]
    at hls
  simp only [dget_pair_ls] at hls
  rw [hth] at hls
  rw [show (List.replicate (List.length [(0:ℝ), 0]) (0:ℝ)) =
      [(0:ℝ), 0] from rfl] at hls
  rw [foldl_vadd_pair_const _ 0 0 _ hc0 0 0,
    foldl_vadd_pair_const _ 1 1 _ hc1 0 0] at hls
  rw [show (List.replicate (List.length [(0:ℝ), 0]) (1:ℝ)) =
      [(1:ℝ), 1] from rfl] at hls
  norm_num [vadd, smulV, batch_size, gamma] at hls

/-- C4 amended: the randomness inside `loss_critic` that is threaded
through the stream seeded with `i` (the per-pair simulator draws, the
index permutation and the interpolation coefficients) determines the
loss once the proposal draw is fixed: the unseeded global stream enters
`loss_critic` only through the proposal draw `thetas`, so two calls
with the same seed whose global streams yield the same `thetas` return
the same loss.  (By `c4_counterexample`, the same does NOT hold for
`approx_grad_u`, whose simulator calls are unseeded, nor for the critic
initialization on line 59; the run is therefore not reproducible from
the seed alone.) -/
theorem c4_loss_critic_global_only_thetas (Xo : List Vec) (pp : PDict)
    (G G' : ℕ → ℝ) (S : ℕ → RNG) (pc : Critic) (i : ℕ) (lgp : ℝ)
    (bs : ℕ) (hth : lcThetas pp G bs = lcThetas pp G' bs) :
    loss_critic Xo pp G S pc i lgp bs =
      loss_critic Xo pp G' S pc i lgp bs := by
  simp only [loss_critic, lcWasserstein, lcGradPenalty, lcX, lcXHat,
    lcXGen, hth]

/-- Witness for the amended C4: two global tapes that differ from index
2 on but agree on the two draws consumed by the proposal draw at batch
size 2 give the same loss at seed 0. -/
theorem c4_loss_critic_global_only_thetas_witness :
    lcThetas ppW GWmix 2 = lcThetas ppW GW 2 ∧
    loss_critic XoW ppW GWmix SW pcW 0 lambda_gp 2 =
      loss_critic XoW ppW GW SW pcW 0 lambda_gp 2 := by
  have hth : lcThetas ppW GWmix 2 = lcThetas ppW GW 2 := by
    norm_num [lcThetas, gaussian_draw, dget, ppW, GWmix, GW,
      show List.range 1 = [0] from rfl,
      show List.range 2 = [0, 1] from rfl]
  exact ⟨hth,
    c4_loss_critic_global_only_thetas XoW ppW GWmix GW SW pcW 0
      lambda_gp 2 hth⟩

end
